import Mathlib

/-!
Verification of the BentonGeoPro sync dashboard workflow
(`src/server/main.py`), a shallow embedding of its three-table
staging / audit / rollback state machine.

Each CSV log file is modelled as a `List UploadRecord`; each FastAPI
endpoint that the claims concern becomes a pure Lean function on a
`SyncState` carrying the three tables.  pandas operations are mapped as
follows: `df[df["upload_id"] == x]` is `List.filter`, `pd.concat` of a
table with new rows is `List.append`, `df.loc[mask, "status"] = v` is a
`List.map` that updates the matching rows, and `sort_values(..,
ascending=False)` is `List.mergeSort` with a descending comparison on
the timestamp column.  The SHA-256 digest is treated as an opaque input
string (no claim depends on hash values), and the byte storage write of
`stage_file` / `direct_import` is modelled by an `Option String`
argument: `some path` for a successful write returning the path, `none`
for a write failure, which in the source raises before any table is
touched.
-/

/-- One row of a log CSV, with the column schema of `main.py`
(`upload_id, timestamp, filename, sha256, prop_id, status, file_path`). -/
structure UploadRecord where
  upload_id : String
  timestamp : String
  filename : String
  sha256 : String
  prop_id : String
  status : String
  file_path : String
deriving DecidableEq, Repr

/-- The three log tables: `staging_area.csv`, `approved_changes.csv`,
`rollback_log.csv`.  The rollback table is named `rollbackLog` to leave
the name `rollback` free for the endpoint. -/
structure SyncState where
  staging : List UploadRecord
  audit : List UploadRecord
  rollbackLog : List UploadRecord
deriving DecidableEq, Repr

/-- Bootstrap state: all three CSV files freshly created with a header
row and zero data rows. -/
def initState : SyncState := { staging := [], audit := [], rollbackLog := [] }

/-- Errors an endpoint can surface: `HTTPException(404, detail)` and a
failure of the byte-storage write (an uncaught I/O exception in the
source). -/
inductive SyncError where
  | notFound (detail : String)
  | storageFailure
deriving DecidableEq, Repr

/-- Python substring test `p in s`, over character lists (Lean string
text is carried as `String.data` so that every operation computes by
kernel reduction). -/
def hasSubstr (p : List Char) : List Char → Bool
  | [] => p.isEmpty
  | c :: rest => p.isPrefixOf (c :: rest) || hasSubstr p rest

/-- Python `str.lower()`: per-character case folding. -/
def lowerPy (s : List Char) : List Char := s.map Char.toLower

/-- Python `str.split(sep)` for a one-character separator: splitting
keeps empty pieces, and the empty string splits to one empty piece. -/
def splitPy (sep : Char) : List Char → List (List Char)
  | [] => [[]]
  | c :: rest =>
    if c = sep then [] :: splitPy sep rest
    else
      match splitPy sep rest with
      | [] => [[c]]
      | piece :: pieces => (c :: piece) :: pieces

/-- Python `str.strip()`: drop whitespace from both ends. -/
def stripPy (s : List Char) : List Char :=
  ((s.dropWhile Char.isWhitespace).reverse.dropWhile Char.isWhitespace).reverse

/-- The marker test of the extraction loop in `stage_file` /
`direct_import` (line 95 of `main.py`): `"prop_id" in line.lower() or
"property_id" in line.lower() or "PropertyID" in line`. -/
def markerLine (line : String) : Bool :=
  hasSubstr "prop_id".data (lowerPy line.data) ||
    hasSubstr "property_id".data (lowerPy line.data) ||
    hasSubstr "PropertyID".data line.data

/-- `line.split(":")` of the loop body. -/
def lineParts (line : String) : List (List Char) := splitPy ':' line.data

/-- A marker line that also passes the `len(parts) > 1` test of the
loop body, i.e. contains at least one colon. -/
def markerColon (line : String) : Bool :=
  markerLine line && decide ((lineParts line).length > 1)

/-- The extraction loop of `stage_file` (lines 93-99 of `main.py`),
over the already-decoded lines: scan for a marker line, split it on
`:`, and when there is a part after the first colon return it
(`parts[1]`) stripped; a marker line without a colon is skipped and
the scan continues; when the scan ends without a hit the sentinel
`UNKNOWN` is returned.  Decoding with `errors="ignore"` is total, so
the input is the list of decoded lines. -/
def extract_prop_id : List String → String
  | [] => "UNKNOWN"
  | line :: rest =>
    if markerLine line then
      let parts := lineParts line
      if parts.length > 1 then String.mk (stripPy ((parts.get? 1).getD []))
      else extract_prop_id rest
    else extract_prop_id rest

/-- `POST /api/sync/stage` (`stage_file`, lines 77-123): persist the
bytes (modelled by `write_result`; the source raises out of the call on
a write failure, before the staging table is read or written), hash,
extract the property id, and append a new `PENDING` row to the staging
table.  `upload_id`, `timestamp`, `sha256` stand for the generated
uuid, `datetime.now()`, and the computed digest. -/
def stage_file (s : SyncState) (write_result : Option String)
    (upload_id timestamp filename sha256 : String) (contents : List String) :
    Except SyncError (SyncState × UploadRecord) :=
  match write_result with
  | none => .error .storageFailure
  | some file_path =>
    let new_row : UploadRecord :=
      { upload_id := upload_id, timestamp := timestamp, filename := filename,
        sha256 := sha256, prop_id := extract_prop_id contents,
        status := "PENDING", file_path := file_path }
    .ok ({ s with staging := s.staging ++ [new_row] }, new_row)

/-- `POST /api/sync/import` (`direct_import`, lines 125-170): same
persistence, hashing and extraction as `stage_file`, but the new row is
appended directly to the audit table with `status = "APPROVED"`. -/
def direct_import (s : SyncState) (write_result : Option String)
    (upload_id timestamp filename sha256 : String) (contents : List String) :
    Except SyncError (SyncState × UploadRecord) :=
  match write_result with
  | none => .error .storageFailure
  | some file_path =>
    let new_row : UploadRecord :=
      { upload_id := upload_id, timestamp := timestamp, filename := filename,
        sha256 := sha256, prop_id := extract_prop_id contents,
        status := "APPROVED", file_path := file_path }
    .ok ({ s with audit := s.audit ++ [new_row] }, new_row)

/-- `POST /api/sync/approve/{upload_id}` (`approve_upload`, lines
213-234): select the staging rows with the given id (`row = df[df[
"upload_id"] == upload_id]`, a copy taken before the update); 404 when
empty; set `status` to `"APPROVED"` on the matching staging rows and
rewrite the staging table (the rows are not removed); append the copy
`row` — still carrying its pre-update status — to the audit table. -/
def approve_upload (s : SyncState) (upload_id : String) :
    Except SyncError SyncState :=
  let row := s.staging.filter (fun r => r.upload_id == upload_id)
  if row.isEmpty then .error (.notFound "Upload not found")
  else
    .ok { s with
      staging := s.staging.map (fun r =>
        if r.upload_id == upload_id then { r with status := "APPROVED" } else r),
      audit := s.audit ++ row }

/-- `POST /api/sync/rollback` (`rollback_upload`, lines 236-256):
select the audit rows with the given id; 404 when empty; remove them
from the audit table and append them, unchanged (in particular with
their status field untouched), to the rollback table. -/
def rollback_upload (s : SyncState) (upload_id : String) :
    Except SyncError SyncState :=
  let row := s.audit.filter (fun r => r.upload_id == upload_id)
  if row.isEmpty then .error (.notFound "Upload not found in audit log")
  else
    .ok { s with
      audit := s.audit.filter (fun r => ¬ (r.upload_id == upload_id)),
      rollbackLog := s.rollbackLog ++ row }

/-- The projection returned by `GET /api/sync/staging-data`
(`get_staging_data`, lines 70-75): `df[["upload_id", "timestamp",
"filename", "sha256", "prop_id", "status"]]` — exactly these six
columns, `file_path` filtered out. -/
structure SafeRecord where
  upload_id : String
  timestamp : String
  filename : String
  sha256 : String
  prop_id : String
  status : String
deriving DecidableEq, Repr

/-- Column projection used by `get_staging_data`. -/
def toSafe (r : UploadRecord) : SafeRecord :=
  { upload_id := r.upload_id, timestamp := r.timestamp,
    filename := r.filename, sha256 := r.sha256,
    prop_id := r.prop_id, status := r.status }

/-- `GET /api/sync/staging-data` (`get_staging_data`, lines 70-75). -/
def get_staging_data (s : SyncState) : List SafeRecord :=
  s.staging.map toSafe

/-- One row of the export CSV: the common columns plus the `log_type`
tag, with `file_path` dropped (`combined_df.drop(columns=["file_path"])`). -/
structure ExportRecord where
  upload_id : String
  timestamp : String
  filename : String
  sha256 : String
  prop_id : String
  status : String
  log_type : String
deriving DecidableEq, Repr

/-- Tag a record with its `log_type` and drop `file_path`. -/
def toExport (t : String) (r : UploadRecord) : ExportRecord :=
  { upload_id := r.upload_id, timestamp := r.timestamp,
    filename := r.filename, sha256 := r.sha256,
    prop_id := r.prop_id, status := r.status, log_type := t }

/-- Descending-timestamp comparison used by
`sort_values("timestamp", ascending=False)` on the string-valued
timestamp column. -/
def tsDesc (a b : ExportRecord) : Bool := decide (b.timestamp ≤ a.timestamp)

/-- `GET /api/sync/export` (`export_logs`, lines 258-288): tag the
three tables with `log_type` values `staged` / `approved` /
`rolled_back`, concatenate, drop `file_path`, and sort by timestamp
descending. -/
def export_logs (s : SyncState) : List ExportRecord :=
  ((s.staging.map (toExport "staged") ++ s.audit.map (toExport "approved"))
      ++ s.rollbackLog.map (toExport "rolled_back")).mergeSort tsDesc

/-- One API call, for reasoning about sequences of operations.  The
creation payloads carry the storage-write outcome and the
caller-supplied / generated fields. -/
inductive Op where
  | stageOp (write : Option String) (uid ts fn sha : String) (contents : List String)
  | importOp (write : Option String) (uid ts fn sha : String) (contents : List String)
  | approveOp (uid : String)
  | rollbackOp (uid : String)
deriving Repr

/-- Run one operation; an endpoint that raises (404 or storage
failure) leaves the persisted tables exactly as they were. -/
def runOp (s : SyncState) : Op → SyncState
  | .stageOp w uid ts fn sha c =>
    match stage_file s w uid ts fn sha c with
    | .ok (s2, _) => s2
    | .error _ => s
  | .importOp w uid ts fn sha c =>
    match direct_import s w uid ts fn sha c with
    | .ok (s2, _) => s2
    | .error _ => s
  | .approveOp uid =>
    match approve_upload s uid with
    | .ok s2 => s2
    | .error _ => s
  | .rollbackOp uid =>
    match rollback_upload s uid with
    | .ok s2 => s2
    | .error _ => s

/-- Run a sequence of operations from a state. -/
def run (s : SyncState) (ops : List Op) : SyncState := ops.foldl runOp s

/-- The upload ids a single operation creates: a successful `stage` or
`import` call creates exactly its fresh uuid, every other call creates
none. -/
def opCreates : Op → List String
  | .stageOp w uid _ _ _ _ => if w.isSome then [uid] else []
  | .importOp w uid _ _ _ _ => if w.isSome then [uid] else []
  | _ => []

/-- All upload ids created by a sequence of operations. -/
def createdIds (ops : List Op) : List String := ops.flatMap opCreates

/-- All rows currently present in any of the three tables. -/
def allRecords (s : SyncState) : List UploadRecord :=
  (s.staging ++ s.audit) ++ s.rollbackLog

/-- The upload ids currently present in any of the three tables. -/
def tableIds (s : SyncState) : List String :=
  (allRecords s).map (fun r => r.upload_id)

/-- The row `stage_file` builds (lines 104-112 of `main.py`) for a
successful storage write to `file_path`. -/
def stagingRow (uid ts fn sha file_path : String) (contents : List String) :
    UploadRecord :=
  { upload_id := uid, timestamp := ts, filename := fn, sha256 := sha,
    prop_id := extract_prop_id contents, status := "PENDING",
    file_path := file_path }

/-- Concrete fixture: a pending staged record. -/
def recU1 : UploadRecord :=
  { upload_id := "u1", timestamp := "t1", filename := "parcel1.xml",
    sha256 := "h1", prop_id := "4500", status := "PENDING",
    file_path := "uploads/p1" }

/-- Concrete fixture: a state whose staging table holds `recU1`. -/
def stateS1 : SyncState := { staging := [recU1], audit := [], rollbackLog := [] }

/-- Concrete fixture: an approved record sitting in the audit table. -/
def recA2 : UploadRecord :=
  { upload_id := "u2", timestamp := "t2", filename := "parcel2.xml",
    sha256 := "h2", prop_id := "4501", status := "APPROVED",
    file_path := "uploads/p2" }

/-- Concrete fixture: a state whose audit table holds `recA2`. -/
def stateA2 : SyncState := { staging := [], audit := [recA2], rollbackLog := [] }

/-! ### Helper lemmas about the endpoint bodies -/

/-- The staging-table update of `approve_upload` never changes an
`upload_id` column. -/
theorem upload_id_setApproved (uid : String) (r : UploadRecord) :
    (if r.upload_id == uid then { r with status := "APPROVED" } else r).upload_id
      = r.upload_id := by
  split <;> rfl

/-- Equation for `approve_upload` on a present id: staging rows with
the id get `status := "APPROVED"` in place, and the pre-update copies
are appended to the audit table. -/
theorem approve_eq (s : SyncState) (uid : String)
    (h : s.staging.filter (fun r => r.upload_id == uid) ≠ []) :
    approve_upload s uid = Except.ok
      { s with
        staging := s.staging.map (fun r =>
          if r.upload_id == uid then { r with status := "APPROVED" } else r),
        audit := s.audit ++ s.staging.filter (fun r => r.upload_id == uid) } := by
  have hne : ¬ ((s.staging.filter (fun r => r.upload_id == uid)).isEmpty = true) := by
    simpa [List.isEmpty_iff] using h
  simp only [approve_upload]
  rw [if_neg hne]

/-- Equation for `approve_upload` on an absent id. -/
theorem approve_notFound (s : SyncState) (uid : String)
    (h : s.staging.filter (fun r => r.upload_id == uid) = []) :
    approve_upload s uid = Except.error (SyncError.notFound "Upload not found") := by
  have hne : (s.staging.filter (fun r => r.upload_id == uid)).isEmpty = true := by
    simpa [List.isEmpty_iff] using h
  simp only [approve_upload]
  rw [if_pos hne]

/-- Equation for `rollback_upload` on an id present in the audit
table: matching rows leave the audit table and are appended, bytewise
unchanged, to the rollback table. -/
theorem rollback_eq (s : SyncState) (uid : String)
    (h : s.audit.filter (fun r => r.upload_id == uid) ≠ []) :
    rollback_upload s uid = Except.ok
      { s with
        audit := s.audit.filter (fun r => ¬ (r.upload_id == uid)),
        rollbackLog := s.rollbackLog ++ s.audit.filter (fun r => r.upload_id == uid) } := by
  have hne : ¬ ((s.audit.filter (fun r => r.upload_id == uid)).isEmpty = true) := by
    simpa [List.isEmpty_iff] using h
  simp only [rollback_upload]
  rw [if_neg hne]

/-- Equation for `rollback_upload` on an id absent from the audit
table, whatever the other tables hold. -/
theorem rollback_notFound (s : SyncState) (uid : String)
    (h : s.audit.filter (fun r => r.upload_id == uid) = []) :
    rollback_upload s uid =
      Except.error (SyncError.notFound "Upload not found in audit log") := by
  have hne : (s.audit.filter (fun r => r.upload_id == uid)).isEmpty = true := by
    simpa [List.isEmpty_iff] using h
  simp only [rollback_upload]
  rw [if_pos hne]

/-- `runOp` on a successful approve. -/
theorem runOp_approve (s : SyncState) (uid : String)
    (h : s.staging.filter (fun r => r.upload_id == uid) ≠ []) :
    runOp s (Op.approveOp uid) =
      { s with
        staging := s.staging.map (fun r =>
          if r.upload_id == uid then { r with status := "APPROVED" } else r),
        audit := s.audit ++ s.staging.filter (fun r => r.upload_id == uid) } := by
  simp [runOp, approve_eq s uid h]

/-- `runOp` on a successful rollback. -/
theorem runOp_rollback (s : SyncState) (uid : String)
    (h : s.audit.filter (fun r => r.upload_id == uid) ≠ []) :
    runOp s (Op.rollbackOp uid) =
      { s with
        audit := s.audit.filter (fun r => ¬ (r.upload_id == uid)),
        rollbackLog := s.rollbackLog ++ s.audit.filter (fun r => r.upload_id == uid) } := by
  simp [runOp, rollback_eq s uid h]

/-! ### Conservation of upload ids along traces -/

/-- Ids of a filtered table are ids of the table. -/
theorem mem_map_of_mem_filter_map {l : List UploadRecord} {p : UploadRecord → Bool}
    {g : UploadRecord → String} {x : String} (h : x ∈ (l.filter p).map g) :
    x ∈ l.map g := by
  obtain ⟨a, ha, rfl⟩ := List.mem_map.mp h
  exact List.mem_map.mpr ⟨a, (List.mem_filter.mp ha).1, rfl⟩

/-- A filter and its complement together keep exactly the ids of the
table. -/
theorem mem_filter_map_partition {l : List UploadRecord} {p : UploadRecord → Bool}
    {g : UploadRecord → String} {x : String} :
    (x ∈ (l.filter (fun r => ¬ p r)).map g ∨ x ∈ (l.filter p).map g) ↔
      x ∈ l.map g := by
  constructor
  · rintro (h | h) <;> exact mem_map_of_mem_filter_map h
  · intro h
    obtain ⟨a, ha, rfl⟩ := List.mem_map.mp h
    by_cases hp : p a
    · exact Or.inr (List.mem_map.mpr ⟨a, List.mem_filter.mpr ⟨ha, hp⟩, rfl⟩)
    · exact Or.inl (List.mem_map.mpr ⟨a, List.mem_filter.mpr ⟨ha, by simpa using hp⟩, rfl⟩)

/-- The staging update of approve keeps the id column pointwise. -/
theorem map_upload_id_setApproved (uid : String) (l : List UploadRecord) :
    (l.map (fun r =>
        if r.upload_id == uid then { r with status := "APPROVED" } else r)).map
      (fun r => r.upload_id) = l.map (fun r => r.upload_id) := by
  rw [List.map_map]
  apply List.map_congr_left
  intro a _
  exact upload_id_setApproved uid a

/-- One operation neither loses nor invents upload ids beyond the ones
it creates. -/
theorem mem_tableIds_runOp (s : SyncState) (op : Op) (x : String) :
    x ∈ tableIds (runOp s op) ↔ x ∈ tableIds s ∨ x ∈ opCreates op := by
  cases op with
  | stageOp w uid ts fn sha c =>
    cases w with
    | none => simp [runOp, stage_file, opCreates]
    | some p =>
      have hrun : runOp s (Op.stageOp (some p) uid ts fn sha c) =
          { s with staging := s.staging ++ [stagingRow uid ts fn sha p c] } := rfl
      have hcr : opCreates (Op.stageOp (some p) uid ts fn sha c) = [uid] := rfl
      rw [hrun, hcr]
      simp only [tableIds, allRecords, stagingRow, List.map_append,
        List.mem_append, List.map_cons, List.map_nil, List.mem_singleton]
      tauto
  | importOp w uid ts fn sha c =>
    cases w with
    | none => simp [runOp, direct_import, opCreates]
    | some p =>
      have hrun : runOp s (Op.importOp (some p) uid ts fn sha c) =
          { s with audit := s.audit ++
              [{ stagingRow uid ts fn sha p c with status := "APPROVED" }] } := rfl
      have hcr : opCreates (Op.importOp (some p) uid ts fn sha c) = [uid] := rfl
      rw [hrun, hcr]
      simp only [tableIds, allRecords, stagingRow, List.map_append,
        List.mem_append, List.map_cons, List.map_nil, List.mem_singleton]
      tauto
  | approveOp uid =>
    by_cases h : s.staging.filter (fun r => r.upload_id == uid) = []
    · simp [runOp, approve_notFound s uid h, opCreates]
    · rw [runOp_approve s uid h]
      simp only [tableIds, allRecords, opCreates, List.map_append,
        List.mem_append, map_upload_id_setApproved, List.not_mem_nil, or_false]
      constructor
      · rintro ((hst | (haud | hfil)) | hrb)
        · exact Or.inl (Or.inl hst)
        · exact Or.inl (Or.inr haud)
        · exact Or.inl (Or.inl (mem_map_of_mem_filter_map hfil))
        · exact Or.inr hrb
      · rintro ((hst | haud) | hrb)
        · exact Or.inl (Or.inl hst)
        · exact Or.inl (Or.inr (Or.inl haud))
        · exact Or.inr hrb
  | rollbackOp uid =>
    by_cases h : s.audit.filter (fun r => r.upload_id == uid) = []
    · simp [runOp, rollback_notFound s uid h, opCreates]
    · rw [runOp_rollback s uid h]
      simp only [tableIds, allRecords, opCreates, List.map_append,
        List.mem_append, List.not_mem_nil, or_false]
      constructor
      · rintro ((hst | haud) | (hrb | hfil))
        · exact Or.inl (Or.inl hst)
        · exact Or.inl (Or.inr (mem_map_of_mem_filter_map haud))
        · exact Or.inr hrb
        · exact Or.inl (Or.inr (mem_map_of_mem_filter_map hfil))
      · rintro ((hst | haud) | hrb)
        · exact Or.inl (Or.inl hst)
        · rcases mem_filter_map_partition.mpr haud with hkeep | hmove
          · exact Or.inl (Or.inr hkeep)
          · exact Or.inr (Or.inr hmove)
        · exact Or.inr (Or.inl hrb)

/-- A trace neither loses nor invents upload ids beyond the created
ones. -/
theorem mem_tableIds_run (ops : List Op) (s : SyncState) (x : String) :
    x ∈ tableIds (run s ops) ↔ x ∈ tableIds s ∨ x ∈ createdIds ops := by
  induction ops generalizing s with
  | nil => simp [run, createdIds]
  | cons op ops ih =>
    have hstep : run s (op :: ops) = run (runOp s op) ops := rfl
    rw [hstep, ih (runOp s op), mem_tableIds_runOp]
    simp [createdIds, List.flatMap_cons, List.mem_append]
    tauto

/-! ### Status invariant along traces -/

/-- One operation only ever writes rows whose status is `PENDING` or
`APPROVED`. -/
theorem statuses_runOp (s : SyncState) (op : Op)
    (hs : ∀ r ∈ allRecords s, r.status = "PENDING" ∨ r.status = "APPROVED") :
    ∀ r ∈ allRecords (runOp s op),
      r.status = "PENDING" ∨ r.status = "APPROVED" := by
  cases op with
  | stageOp w uid ts fn sha c =>
    cases w with
    | none => simpa [runOp, stage_file] using hs
    | some p =>
      have hrun : runOp s (Op.stageOp (some p) uid ts fn sha c) =
          { s with staging := s.staging ++ [stagingRow uid ts fn sha p c] } := rfl
      intro r hr
      rw [hrun] at hr
      simp only [allRecords, List.mem_append, List.mem_singleton] at hr
      rcases hr with ((hr | hr) | hr) | hr
      · exact hs r (by simp [allRecords, hr])
      · subst hr
        left
        rfl
      · exact hs r (by simp [allRecords, hr])
      · exact hs r (by simp [allRecords, hr])
  | importOp w uid ts fn sha c =>
    cases w with
    | none => simpa [runOp, direct_import] using hs
    | some p =>
      have hrun : runOp s (Op.importOp (some p) uid ts fn sha c) =
          { s with audit := s.audit ++
              [{ stagingRow uid ts fn sha p c with status := "APPROVED" }] } := rfl
      intro r hr
      rw [hrun] at hr
      simp only [allRecords, List.mem_append, List.mem_singleton] at hr
      rcases hr with (hr | (hr | hr)) | hr
      · exact hs r (by simp [allRecords, hr])
      · exact hs r (by simp [allRecords, hr])
      · subst hr
        right
        rfl
      · exact hs r (by simp [allRecords, hr])
  | approveOp uid =>
    by_cases h : s.staging.filter (fun r => r.upload_id == uid) = []
    · intro r hr
      refine hs r ?_
      simpa [runOp, approve_notFound s uid h] using hr
    · intro r hr
      rw [runOp_approve s uid h] at hr
      simp only [allRecords, List.mem_append, or_assoc] at hr
      rcases hr with hr | hr | hr | hr
      · obtain ⟨a, ha, rfl⟩ := List.mem_map.mp hr
        by_cases hp : (a.upload_id == uid) = true
        · rw [if_pos hp]
          right
          rfl
        · rw [if_neg hp]
          exact hs a (by simp [allRecords, ha])
      · exact hs r (by simp [allRecords, hr])
      · exact hs r (by simp [allRecords, (List.mem_filter.mp hr).1])
      · exact hs r (by simp [allRecords, hr])
  | rollbackOp uid =>
    by_cases h : s.audit.filter (fun r => r.upload_id == uid) = []
    · intro r hr
      refine hs r ?_
      simpa [runOp, rollback_notFound s uid h] using hr
    · intro r hr
      rw [runOp_rollback s uid h] at hr
      simp only [allRecords, List.mem_append, or_assoc] at hr
      rcases hr with hr | hr | hr | hr
      · exact hs r (by simp [allRecords, hr])
      · exact hs r (by simp [allRecords, (List.mem_filter.mp hr).1])
      · exact hs r (by simp [allRecords, hr])
      · exact hs r (by simp [allRecords, (List.mem_filter.mp hr).1])

/-- A trace only ever writes rows whose status is `PENDING` or
`APPROVED`. -/
theorem statuses_run (ops : List Op) (s : SyncState)
    (hs : ∀ r ∈ allRecords s, r.status = "PENDING" ∨ r.status = "APPROVED") :
    ∀ r ∈ allRecords (run s ops),
      r.status = "PENDING" ∨ r.status = "APPROVED" := by
  induction ops generalizing s with
  | nil => simpa [run] using hs
  | cons op ops ih => exact ih (runOp s op) (statuses_runOp s op hs)

/-! ### Claims C1 - C6 -/

/-- C1 counterexample: on a staging table holding the pending record
`recU1`, approving `u1` succeeds, yet the record is still present in
the staging table afterwards, and the audit table holds no `u1` row
with status `APPROVED` — the appended audit row still carries
`PENDING`.  The claim's "removes the record from the staging table"
and "appends it (with status APPROVED)" are both false. -/
theorem approve_keeps_staging_cex :
    (approve_upload stateS1 "u1").isOk = true ∧
    (runOp stateS1 (Op.approveOp "u1")).staging.filter
        (fun r => r.upload_id == "u1") ≠ [] ∧
    (runOp stateS1 (Op.approveOp "u1")).audit.filter
        (fun r => r.upload_id == "u1" && r.status == "APPROVED") = [] ∧
    (runOp stateS1 (Op.approveOp "u1")).audit.filter
        (fun r => r.upload_id == "u1" && r.status == "PENDING") ≠ [] := by
  decide

/-- C1 (amended): for every upload_id present in the staging table,
approve sets the matching staging rows' status to `APPROVED` in place
— the records remain in the staging table — and appends copies of the
rows as they were before the update (so still with their pre-approval
status, `PENDING` for a staged record) to the audit table. -/
theorem approve_upload_behavior (s : SyncState) (uid : String)
    (h : s.staging.filter (fun r => r.upload_id == uid) ≠ []) :
    approve_upload s uid = Except.ok
      { s with
        staging := s.staging.map (fun r =>
          if r.upload_id == uid then { r with status := "APPROVED" } else r),
        audit := s.audit ++ s.staging.filter (fun r => r.upload_id == uid) } :=
  approve_eq s uid h

/-- Witness for C1's amended theorem at the concrete state `stateS1`. -/
theorem approve_upload_behavior_witness :
    stateS1.staging.filter (fun r => r.upload_id == "u1") ≠ [] ∧
    approve_upload stateS1 "u1" = Except.ok
      { stateS1 with
        staging := stateS1.staging.map (fun r =>
          if r.upload_id == "u1" then { r with status := "APPROVED" } else r),
        audit := stateS1.audit ++ stateS1.staging.filter
          (fun r => r.upload_id == "u1") } :=
  ⟨by decide, approve_upload_behavior stateS1 "u1" (by decide)⟩

/-- C2 counterexample: after the reachable trace stage(`u1`) then
approve(`u1`), the id `u1` is in the staging table and in the audit
table at once — the pairwise-disjointness part of the claim fails. -/
theorem staging_audit_overlap_cex :
    "u1" ∈ (run initState
        [Op.stageOp (some "uploads/p1") "u1" "t1" "parcel1.xml" "h1" [],
         Op.approveOp "u1"]).staging.map (fun r => r.upload_id) ∧
    "u1" ∈ (run initState
        [Op.stageOp (some "uploads/p1") "u1" "t1" "parcel1.xml" "h1" [],
         Op.approveOp "u1"]).audit.map (fun r => r.upload_id) := by
  decide

/-- C2 (amended): the no-loss half of the invariant holds — after any
sequence of operations from the empty state, the ids present in the
three tables together are exactly the ids created by the successful
stage and direct-import calls of the trace.  The disjointness half is
false (see the counterexample): approve copies a record into audit
while leaving it in staging. -/
theorem run_ids_union_eq_created (ops : List Op) (x : String) :
    x ∈ tableIds (run initState ops) ↔ x ∈ createdIds ops := by
  rw [mem_tableIds_run]
  simp [tableIds, allRecords, initState]

/-- C3 counterexample: approving `u1` twice in a row from `stateS1`
succeeds both times — the second call does not fail with `NotFound` —
and the second call appends a second `u1` row to the audit table. -/
theorem double_approve_succeeds_cex :
    (approve_upload stateS1 "u1").isOk = true ∧
    (approve_upload (runOp stateS1 (Op.approveOp "u1")) "u1").isOk = true ∧
    (runOp (runOp stateS1 (Op.approveOp "u1")) (Op.approveOp "u1")).audit.length
      = 2 := by
  decide

/-- C3 (amended): because approve leaves the record in the staging
table, a second approve of the same id also succeeds; it finds the
rows (now carrying status `APPROVED`) in staging and appends them to
the audit table a second time. -/
theorem approve_twice_behavior (s : SyncState) (uid : String)
    (h : s.staging.filter (fun r => r.upload_id == uid) ≠ []) :
    (approve_upload s uid).isOk = true ∧
    (approve_upload (runOp s (Op.approveOp uid)) uid).isOk = true ∧
    ((runOp s (Op.approveOp uid)).staging.filter
        (fun r => r.upload_id == uid)).all
      (fun r => r.status == "APPROVED") = true ∧
    (runOp (runOp s (Op.approveOp uid)) (Op.approveOp uid)).audit =
      (runOp s (Op.approveOp uid)).audit ++
        (runOp s (Op.approveOp uid)).staging.filter
          (fun r => r.upload_id == uid) := by
  have h2 : (runOp s (Op.approveOp uid)).staging.filter
      (fun r => r.upload_id == uid) ≠ [] := by
    rw [runOp_approve s uid h]
    obtain ⟨a, ha⟩ := List.exists_mem_of_ne_nil _ h
    obtain ⟨ha1, ha2⟩ := List.mem_filter.mp ha
    apply List.ne_nil_of_mem
      (a := if a.upload_id == uid then { a with status := "APPROVED" } else a)
    refine List.mem_filter.mpr ⟨List.mem_map.mpr ⟨a, ha1, rfl⟩, ?_⟩
    rw [upload_id_setApproved]
    exact ha2
  refine ⟨?_, ?_, ?_, ?_⟩
  · rw [approve_eq s uid h]
    rfl
  · rw [approve_eq _ uid h2]
    rfl
  · rw [runOp_approve s uid h]
    rw [List.all_eq_true]
    intro r hr
    obtain ⟨hmem, hp⟩ := List.mem_filter.mp hr
    obtain ⟨a, ha, rfl⟩ := List.mem_map.mp hmem
    rw [upload_id_setApproved] at hp
    simp [hp]
  · rw [runOp_approve _ uid h2]

/-- Witness for C3's amended theorem at the concrete state `stateS1`. -/
theorem approve_twice_behavior_witness :
    stateS1.staging.filter (fun r => r.upload_id == "u1") ≠ [] ∧
    ((approve_upload stateS1 "u1").isOk = true ∧
      (approve_upload (runOp stateS1 (Op.approveOp "u1")) "u1").isOk = true ∧
      ((runOp stateS1 (Op.approveOp "u1")).staging.filter
          (fun r => r.upload_id == "u1")).all
        (fun r => r.status == "APPROVED") = true ∧
      (runOp (runOp stateS1 (Op.approveOp "u1")) (Op.approveOp "u1")).audit =
        (runOp stateS1 (Op.approveOp "u1")).audit ++
          (runOp stateS1 (Op.approveOp "u1")).staging.filter
            (fun r => r.upload_id == "u1")) :=
  ⟨by decide, approve_twice_behavior stateS1 "u1" (by decide)⟩

/-- C4 counterexample: a direct import creates its record with status
`APPROVED` from the start — no record with this id was ever `PENDING`,
so "every record is created with status PENDING" is false. -/
theorem direct_import_approved_cex :
    direct_import initState (some "uploads/p2") "u2" "t2" "parcel2.xml" "h2" []
      = Except.ok
        ({ staging := [],
           audit := [{ stagingRow "u2" "t2" "parcel2.xml" "h2" "uploads/p2" []
                        with status := "APPROVED" }],
           rollbackLog := [] },
         { stagingRow "u2" "t2" "parcel2.xml" "h2" "uploads/p2" []
            with status := "APPROVED" }) ∧
    ({ stagingRow "u2" "t2" "parcel2.xml" "h2" "uploads/p2" []
        with status := "APPROVED" }).status = "APPROVED" :=
  ⟨rfl, rfl⟩

/-- C4 (amended): stage creates `PENDING` rows, direct-import creates
`APPROVED` rows outright (skipping `PENDING`), approve moves matching
staging rows from `PENDING` to `APPROVED`, and rollback never touches
a status — so in every state reachable from the empty state every
record's status is `PENDING` or `APPROVED`, and no record ever carries
`ROLLED_BACK`. -/
theorem run_status_invariant (ops : List Op) (r : UploadRecord)
    (h : r ∈ allRecords (run initState ops)) :
    r.status = "PENDING" ∨ r.status = "APPROVED" :=
  statuses_run ops initState (by simp [allRecords, initState]) r h

/-- Witness for C4's theorem on the trace stage(`u1`);import(`u2`),
at the staged record. -/
theorem run_status_invariant_witness :
    recU1 ∈ allRecords (run initState
      [Op.stageOp (some "uploads/p1") "u1" "t1" "parcel1.xml" "h1"
        ["prop_id: 4500"],
       Op.importOp (some "uploads/p2") "u2" "t2" "parcel2.xml" "h2" []]) ∧
    (recU1.status = "PENDING" ∨ recU1.status = "APPROVED") :=
  ⟨by decide, run_status_invariant
    [Op.stageOp (some "uploads/p1") "u1" "t1" "parcel1.xml" "h1"
      ["prop_id: 4500"],
     Op.importOp (some "uploads/p2") "u2" "t2" "parcel2.xml" "h2" []]
    recU1 (by decide)⟩

/-- C5 counterexample: rolling back the approved record `recA2` moves
it to the rollback table still carrying status `APPROVED` — no row
with status `ROLLED_BACK` exists anywhere, so "sets that record's
status to ROLLED_BACK" is false. -/
theorem rollback_keeps_status_cex :
    (rollback_upload stateA2 "u2").isOk = true ∧
    (runOp stateA2 (Op.rollbackOp "u2")).audit = [] ∧
    (runOp stateA2 (Op.rollbackOp "u2")).rollbackLog = [recA2] ∧
    recA2.status = "APPROVED" := by
  decide

/-- C5 (amended): for every upload_id present in the audit table,
rollback removes the matching rows from the audit table and appends
them, bytewise unchanged — in particular without setting their status
to `ROLLED_BACK` — to the rollback table. -/
theorem rollback_upload_behavior (s : SyncState) (uid : String)
    (h : s.audit.filter (fun r => r.upload_id == uid) ≠ []) :
    rollback_upload s uid = Except.ok
      { s with
        audit := s.audit.filter (fun r => ¬ (r.upload_id == uid)),
        rollbackLog := s.rollbackLog ++ s.audit.filter
          (fun r => r.upload_id == uid) } :=
  rollback_eq s uid h

/-- Witness for C5's amended theorem at the concrete state `stateA2`. -/
theorem rollback_upload_behavior_witness :
    stateA2.audit.filter (fun r => r.upload_id == "u2") ≠ [] ∧
    rollback_upload stateA2 "u2" = Except.ok
      { stateA2 with
        audit := stateA2.audit.filter (fun r => ¬ (r.upload_id == "u2")),
        rollbackLog := stateA2.rollbackLog ++ stateA2.audit.filter
          (fun r => r.upload_id == "u2") } :=
  ⟨by decide, rollback_upload_behavior stateA2 "u2" (by decide)⟩

/-- C6: rolling back an id that sits in staging with status `PENDING`
but has no row in the audit table fails with the 404 `NotFound`
("Upload not found in audit log"), leaves the state unchanged, and the
outcome is the same whatever the staging table holds — the endpoint
consults only the audit table. -/
theorem rollback_pending_not_found (s : SyncState) (uid : String)
    (hstag : s.staging.filter
        (fun r => r.upload_id == uid && r.status == "PENDING") ≠ [])
    (haud : s.audit.filter (fun r => r.upload_id == uid) = []) :
    rollback_upload s uid =
        Except.error (SyncError.notFound "Upload not found in audit log") ∧
    runOp s (Op.rollbackOp uid) = s ∧
    (∀ staging2 : List UploadRecord,
      rollback_upload { s with staging := staging2 } uid =
        Except.error (SyncError.notFound "Upload not found in audit log")) := by
  refine ⟨rollback_notFound s uid haud, ?_, ?_⟩
  · simp [runOp, rollback_notFound s uid haud]
  · intro staging2
    exact rollback_notFound _ uid haud

/-- Witness for C6 at the concrete state `stateS1` (record `u1` is
`PENDING` in staging and absent from audit). -/
theorem rollback_pending_not_found_witness :
    stateS1.staging.filter
        (fun r => r.upload_id == "u1" && r.status == "PENDING") ≠ [] ∧
    stateS1.audit.filter (fun r => r.upload_id == "u1") = [] ∧
    rollback_upload stateS1 "u1" =
        Except.error (SyncError.notFound "Upload not found in audit log") ∧
    runOp stateS1 (Op.rollbackOp "u1") = stateS1 := by
  have h := rollback_pending_not_found stateS1 "u1" (by decide) (by decide)
  exact ⟨by decide, by decide, h.1, h.2.1⟩

/-! ### Claims C7 - C10 -/

/-- The descending timestamp comparison is transitive. -/
theorem tsDesc_trans (a b c : ExportRecord) (hab : tsDesc a b = true)
    (hbc : tsDesc b c = true) : tsDesc a c = true := by
  simp only [tsDesc, decide_eq_true_eq] at hab hbc ⊢
  exact le_trans hbc hab

/-- The descending timestamp comparison is total. -/
theorem tsDesc_total (a b : ExportRecord) : (tsDesc a b || tsDesc b a) = true := by
  simp only [tsDesc, Bool.or_eq_true, decide_eq_true_eq]
  exact le_total b.timestamp a.timestamp

/-- C7: export returns exactly the rows of the three tables, each
tagged `staged` / `approved` / `rolled_back` after its source table
(as a permutation of the three tagged tables), sorted by timestamp
descending; the `file_path` column is absent from `ExportRecord` and
the output is unchanged under any rewriting of the stored paths. -/
theorem export_logs_spec (s : SyncState) :
    (export_logs s).Perm
      ((s.staging.map (toExport "staged") ++ s.audit.map (toExport "approved"))
        ++ s.rollbackLog.map (toExport "rolled_back")) ∧
    (export_logs s).Pairwise (fun a b => b.timestamp ≤ a.timestamp) ∧
    (∀ f : UploadRecord → String,
      export_logs
        { staging := s.staging.map (fun r => { r with file_path := f r }),
          audit := s.audit.map (fun r => { r with file_path := f r }),
          rollbackLog :=
            s.rollbackLog.map (fun r => { r with file_path := f r }) }
        = export_logs s) := by
  refine ⟨List.mergeSort_perm _ _, ?_, ?_⟩
  · have h := List.sorted_mergeSort tsDesc_trans tsDesc_total
      ((s.staging.map (toExport "staged") ++ s.audit.map (toExport "approved"))
        ++ s.rollbackLog.map (toExport "rolled_back"))
    exact h.imp (fun hab => of_decide_eq_true hab)
  · intro f
    have hmap : ∀ (t : String) (l : List UploadRecord),
        (l.map (fun r => { r with file_path := f r })).map (toExport t)
          = l.map (toExport t) := by
      intro t l
      rw [List.map_map]
      exact List.map_congr_left (fun a _ => rfl)
    simp only [export_logs]
    rw [hmap, hmap, hmap]

/-- C8: a failed byte-storage write aborts `stage_file` before any
table is touched — the call reports the storage failure and the state
is unchanged, with no partial record in the staging table; a
successful write appends exactly the one new `PENDING` row, after the
persistence step. -/
theorem stage_storage_failure_aborts (s : SyncState)
    (uid ts fn sha : String) (contents : List String) :
    stage_file s none uid ts fn sha contents =
        Except.error SyncError.storageFailure ∧
    runOp s (Op.stageOp none uid ts fn sha contents) = s ∧
    (∀ p : String,
      stage_file s (some p) uid ts fn sha contents = Except.ok
        ({ s with staging := s.staging ++ [stagingRow uid ts fn sha p contents] },
         stagingRow uid ts fn sha p contents)) :=
  ⟨rfl, rfl, fun _ => rfl⟩

/-- Lines without a colon-carrying marker are skipped by the
extraction loop. -/
theorem extract_prop_id_append (pre rest : List String)
    (h : ∀ m ∈ pre, markerColon m = false) :
    extract_prop_id (pre ++ rest) = extract_prop_id rest := by
  induction pre with
  | nil => rfl
  | cons m ms ih =>
    have hm : markerColon m = false := h m (by simp)
    have hrec := ih (fun x hx => h x (by simp [hx]))
    rw [List.cons_append]
    by_cases hml : markerLine m = true
    · have hcol : ¬ ((lineParts m).length > 1) := by
        simp only [markerColon, hml, Bool.true_and,
          decide_eq_false_iff_not] at hm
        exact hm
      simp only [extract_prop_id, if_pos hml, if_neg hcol]
      exact hrec
    · simp only [extract_prop_id, if_neg hml]
      exact hrec

/-- C9: identifier extraction is total and never blocks staging — with
no marker line carrying a colon the result is the sentinel `UNKNOWN`,
and the record is staged with status `PENDING` regardless; the first
marker line containing a colon yields the text between its first and
second colon (`parts[1]`), stripped of whitespace. -/
theorem extract_prop_id_spec (lines pre post : List String) (l : String)
    (s : SyncState) (p uid ts fn sha : String) :
    ((∀ m ∈ lines, markerColon m = false) →
      extract_prop_id lines = "UNKNOWN") ∧
    (lines = pre ++ l :: post → (∀ m ∈ pre, markerColon m = false) →
      markerColon l = true →
      extract_prop_id lines =
        String.mk (stripPy (((lineParts l).get? 1).getD []))) ∧
    (stage_file s (some p) uid ts fn sha lines = Except.ok
        ({ s with staging := s.staging ++ [stagingRow uid ts fn sha p lines] },
         stagingRow uid ts fn sha p lines) ∧
      (stagingRow uid ts fn sha p lines).status = "PENDING" ∧
      (stagingRow uid ts fn sha p lines).prop_id = extract_prop_id lines) := by
  refine ⟨?_, ?_, rfl, rfl, rfl⟩
  · intro h
    have happ := extract_prop_id_append lines [] h
    simpa using happ
  · intro hsplit hpre hl
    subst hsplit
    rw [extract_prop_id_append pre (l :: post) hpre]
    have hml : markerLine l = true := by
      simp only [markerColon, Bool.and_eq_true, decide_eq_true_eq] at hl
      exact hl.1
    have hcol : (lineParts l).length > 1 := by
      simp only [markerColon, Bool.and_eq_true, decide_eq_true_eq] at hl
      exact hl.2
    simp only [extract_prop_id, if_pos hml, if_pos hcol]

/-- Witness for C9 on concrete contents: no marker gives `UNKNOWN`,
and `prop_id: 4500` on the second line gives `4500`. -/
theorem extract_prop_id_spec_witness :
    extract_prop_id ["hello", "world:1"] = "UNKNOWN" ∧
    extract_prop_id ["hello", "prop_id: 4500", "x"] = "4500" ∧
    (stagingRow "u1" "t1" "parcel1.xml" "h1" "uploads/p1" ["hello"]).status
      = "PENDING" := by
  have h1 := (extract_prop_id_spec ["hello", "world:1"] [] [] ""
    initState "" "" "" "" "").1 (by decide)
  have h2 := (extract_prop_id_spec ["hello", "prop_id: 4500", "x"] ["hello"]
    ["x"] "prop_id: 4500" initState "" "" "" "" "").2.1 rfl (by decide) (by decide)
  refine ⟨h1, ?_, rfl⟩
  rw [h2]
  decide

/-- C10: the staging listing is exactly the per-record projection to
the six safe columns (`upload_id, timestamp, filename, sha256,
prop_id, status`) — `SafeRecord` has no `file_path` field — and its
output is unchanged under any rewriting of the stored `file_path`
values. -/
theorem get_staging_data_spec (s : SyncState) :
    get_staging_data s = s.staging.map toSafe ∧
    (∀ f : UploadRecord → String,
      get_staging_data
        { s with staging := s.staging.map (fun r => { r with file_path := f r }) }
        = get_staging_data s) := by
  refine ⟨rfl, ?_⟩
  intro f
  simp only [get_staging_data, List.map_map]
  exact List.map_congr_left (fun a _ => rfl)
